import Mathlib

/-!
Shallow embedding of the weighted statistical aggregation and
categorical-association engine of `cultura2.py` (cleaning stage, derivation
stage, weighted aggregation helpers, Cramér's V and the association matrix).

Conventions of the embedding:
* a missing value (pandas `NaN`) is `none`; present values are `some _`;
* numeric values are exact rationals `ℚ` (the source computes in floating
  point; all quantities of interest here are finite ratios and sums, which
  the rational model represents exactly);
* a caught Python exception, or a float expression that is not a finite
  number (`NaN`/`inf` from a division by zero that numpy does not raise on),
  is modelled by `Option`/an explicit default, as stated at each definition.
-/

/-- A column of the observation table: categorical columns hold optional
strings, numeric columns hold optional rationals.  This mirrors the dtype
split `limpiar_datos_categoricos` makes with
`select_dtypes(include=['object', 'category'])` versus the numeric rest. -/
inductive Column where
  | cat : String → List (Option String) → Column
  | num : String → List (Option ℚ) → Column
deriving DecidableEq, Repr

/-- The column's name (pandas column label). -/
def Column.name : Column → String
  | .cat n _ => n
  | .num n _ => n

/-- `df[col].isnull().sum()` for one column: the number of missing cells. -/
def Column.naCount : Column → ℕ
  | .cat _ cs => cs.countP (·.isNone)
  | .num _ cs => cs.countP (·.isNone)

/-- The number of cells stored in the column. -/
def Column.size : Column → ℕ
  | .cat _ cs => cs.length
  | .num _ cs => cs.length

/-- An observation table: the row count `len(df)` and the ordered columns.
A well-formed table (see `Table.WF`) has every column of length `nRows`. -/
structure Table where
  nRows : ℕ
  cols : List Column
deriving DecidableEq, Repr

/-- Well-formedness: every column stores one cell per row, as in a pandas
DataFrame. -/
def Table.WF (t : Table) : Prop := ∀ c ∈ t.cols, c.size = t.nRows

/-- `porcentaje_na` of one column: `(isnull().sum() / len(df)) * 100`.
For `len(df) = 0` pandas yields NaN, which compares false against every
threshold; the rational model yields `naCount / 0 = 0`, which likewise
fails the strict `>` test against every nonnegative threshold. -/
def missingPct (nRows : ℕ) (c : Column) : ℚ := ((c.naCount : ℚ) / nRows) * 100

/-- The PASO 1 drop test of `limpiar_datos_categoricos`:
`porcentaje_na > umbral_na * 100` (strict). -/
def dropFlag (nRows : ℕ) (umbralNa : ℚ) (c : Column) : Bool :=
  decide (umbralNa * 100 < missingPct nRows c)

/-- PASO 2 of `limpiar_datos_categoricos` on one column:
`fillna("NO INFORMACION")` on a categorical column that has at least one
missing value (recording it in `columnas_imputadas_categoricas`, the
returned flag); numeric columns are never modified. -/
def imputeCategorical : Column → Column × Bool
  | .cat n cs =>
      if 0 < cs.countP (·.isNone) then
        (.cat n (cs.map (fun o => some (o.getD "NO INFORMACION"))), true)
      else (.cat n cs, false)
  | .num n cs => (.num n cs, false)

/-- The cleaning report `info_limpieza` (the free-text `observaciones` are
presentation only and not modelled). -/
structure CleanInfo where
  formaOriginal : ℕ × ℕ
  formaFinal : ℕ × ℕ
  columnasEliminadas : List String
  columnasImputadas : List String
deriving DecidableEq, Repr

/-- `limpiar_datos_categoricos(df, umbral_na)`:
drop every column whose missing percentage strictly exceeds
`umbral_na * 100` (the filtered `porcentaje_na` Series keeps the original
column order), then impute the remaining categorical columns that have
missing values with `"NO INFORMACION"`.  Returns the cleaned table and the
report. -/
def limpiarDatosCategoricos (t : Table) (umbralNa : ℚ) : Table × CleanInfo :=
  let eliminadas := t.cols.filter (dropFlag t.nRows umbralNa)
  let kept := t.cols.filter (fun c => ! dropFlag t.nRows umbralNa c)
  let imputed := kept.map imputeCategorical
  let newCols := imputed.map Prod.fst
  ({ nRows := t.nRows, cols := newCols },
   { formaOriginal := (t.nRows, t.cols.length)
     formaFinal := (t.nRows, newCols.length)
     columnasEliminadas := eliminadas.map Column.name
     columnasImputadas := (imputed.filter Prod.snd).map (fun p => p.1.name) })

/-- The order of dropped columns that the specification asserts
(descending missing fraction, ties broken by original column order),
written from the spec's words so it can be compared with the source's
`columnasEliminadas`.  The insertion places a column strictly before an
already placed one only when its missing percentage is strictly larger, so
columns are inserted left to right and a tie keeps the original order. -/
def insertByPctDesc (nRows : ℕ) (c : Column) : List Column → List Column
  | [] => [c]
  | d :: ds =>
      if missingPct nRows d < missingPct nRows c then c :: d :: ds
      else d :: insertByPctDesc nRows c ds

/-- Spec-claimed ordering of the dropped-column list: the dropped columns
sorted by descending missing fraction, ties keeping original order (a
stable insertion sort, folding over the dropped columns from left to
right). -/
def droppedSpecOrder (t : Table) (umbralNa : ℚ) : List String :=
  ((t.cols.filter (dropFlag t.nRows umbralNa)).foldl
      (fun acc c => insertByPctDesc t.nRows c acc) []).map Column.name

/-- `grupo_edad` derivation of `load_and_process_data`:
`pd.cut(df['EDAD'], bins=[0,12,18,28,40,60,100], labels=[...],
include_lowest=True)`.  `pd.cut` uses right-closed intervals, and
`include_lowest` additionally closes the first interval on the left, so the
buckets are [0,12], (12,18], (18,28], (28,40], (40,60], (60,100]; a missing
age or an age outside [0,100] falls in no bin and yields `none` (NaN). -/
def grupo_edad (edad : Option ℚ) : Option String :=
  match edad with
  | none => none
  | some a =>
      if a < 0 then none
      else if a ≤ 12 then some "Niñez (0-12)"
      else if a ≤ 18 then some "Adolescencia (13-18)"
      else if a ≤ 28 then some "Juventud (19-28)"
      else if a ≤ 40 then some "Adultez temprana (29-40)"
      else if a ≤ 60 then some "Adultez media (41-60)"
      else if a ≤ 100 then some "Adulto mayor (60+)"
      else none

/-- Age bucketing as the specification words it (left-inclusive binning over
the boundaries 0,12,18,28,40,60,100, ages outside [0,100] or missing
mapping to the undefined value), written from the spec for comparison with
the source's `grupo_edad`. -/
def grupo_edad_spec (edad : Option ℚ) : Option String :=
  match edad with
  | none => none
  | some a =>
      if a < 0 then none
      else if a < 12 then some "Niñez (0-12)"
      else if a < 18 then some "Adolescencia (13-18)"
      else if a < 28 then some "Juventud (19-28)"
      else if a < 40 then some "Adultez temprana (29-40)"
      else if a < 60 then some "Adultez media (41-60)"
      else if a ≤ 100 then some "Adulto mayor (60+)"
      else none

/-- Result of the FACTOR DE EXPANSION validation block of
`load_and_process_data`: the repaired weight column, whether the column was
absent and assumed to be 1 (`asumido`), the reported count of values that
were missing after numeric coercion (`valoresNulos`), and the separately
reported count of non-positive values (`valoresInvalidos`). -/
structure WeightRepair where
  weights : List ℚ
  asumido : Bool
  valoresNulos : ℕ
  valoresInvalidos : ℕ
deriving DecidableEq, Repr

/-- The FACTOR DE EXPANSION validation of `load_and_process_data`.
The input column is the weight column after `pd.to_numeric(·,
errors='coerce')`: a cell is `some q` when it held the number `q` and
`none` when it was missing or failed numeric coercion.  `none` when the
column is absent from the table.  If absent, the column is created with
constant 1 and flagged as an assumption; otherwise missing values are
counted and replaced by 1, and then the (originally numeric) values `≤ 0`
are counted separately and replaced by 1. -/
def repairFactorExpansion (col : Option (List (Option ℚ))) (nRows : ℕ) :
    WeightRepair :=
  match col with
  | none => ⟨List.replicate nRows 1, true, 0, 0⟩
  | some cs =>
      let valoresNulos := cs.countP (·.isNone)
      let w1 := cs.map (fun o => o.getD 1)
      let valoresInvalidos := w1.countP (fun v => decide (v ≤ 0))
      let w2 := w1.map (fun v => if v ≤ 0 then 1 else v)
      ⟨w2, false, valoresNulos, valoresInvalidos⟩

/-- One aligned observation handed to `cramers_v`: the value of `x`, the
value of `y`, and the row's weight. -/
abbrev WRow := String × String × ℚ

/-- The distinct categories of the first variable among the observations
(the row labels of the crosstab). -/
def xCats (rows : List WRow) : List String := (rows.map Prod.fst).dedup

/-- The distinct categories of the second variable among the observations
(the column labels of the crosstab). -/
def yCats (rows : List WRow) : List String := (rows.map (fun r => r.2.1)).dedup

/-- The weight sum of the observations holding the given pair of values. -/
def cellWeight (rows : List WRow) (a b : String) : ℚ :=
  ((rows.filter (fun r => r.1 == a && r.2.1 == b)).map (fun r => r.2.2)).sum

/-- Whether the pair of values occurs in at least one observation. -/
def cellObserved (rows : List WRow) (a b : String) : Bool :=
  rows.any (fun r => r.1 == a && r.2.1 == b)

/-- One cell of `pd.crosstab(x, y, weights, aggfunc='sum')`: the weight sum
over the observations holding the given pair of values when the pair is
observed; pandas writes NaN — `none` here — into the cell of a category
pair that never occurs, and the source never fills those cells. -/
def cell (rows : List WRow) (a b : String) : Option ℚ :=
  if cellObserved rows a b then some (cellWeight rows a b) else none

/-- Whether the crosstab contains a NaN cell, i.e. some pair of observed
categories that never occurs together. -/
def hasNaNCell (rows : List WRow) : Bool :=
  (xCats rows).any (fun a => (yCats rows).any (fun b => ! cellObserved rows a b))

/-- A row margin of the crosstab, as `scipy.stats.contingency.expected_freq`
computes it on a NaN-free table: the sum of the cells of that row.  (On a
table with a NaN cell numpy's margins are NaN and the whole statistic is
NaN; that path short-circuits inside `cramers_v` below, so the margins are
only consulted on NaN-free tables, where the `getD 0` defaults are never
used.) -/
def rowMargin (rows : List WRow) (a : String) : ℚ :=
  ((yCats rows).map (fun b => (cell rows a b).getD 0)).sum

/-- A column margin of the crosstab on a NaN-free table (see `rowMargin`). -/
def colMargin (rows : List WRow) (b : String) : ℚ :=
  ((xCats rows).map (fun a => (cell rows a b).getD 0)).sum

/-- `crosstab.sum().sum()`: the grand total of the contingency table, the
`n` of `cramers_v`.  Pandas sums SKIP NaN cells (`skipna=True`), so this is
the weight sum over the observed cells — a plain number even when the
table has NaN cells, which is exactly what `getD 0` computes. -/
def crosstabTotal (rows : List WRow) : ℚ :=
  ((xCats rows).map (rowMargin rows)).sum

/-- An expected frequency under independence,
`row margin × column margin / grand total`, on a NaN-free table. -/
def expectedFreq (rows : List WRow) (a b : String) : ℚ :=
  rowMargin rows a * colMargin rows b / crosstabTotal rows

/-- One term of the chi-square sum.  `scipy.stats.chi2_contingency` applies
the Yates continuity correction exactly when the table has one degree of
freedom (a 2×2 table): the absolute deviation is shrunk by 1/2 towards 0
before squaring. -/
def chiTerm (yates : Bool) (o e : ℚ) : ℚ :=
  if yates then max (|o - e| - 1/2) 0 ^ 2 / e else (o - e) ^ 2 / e

/-- The chi-square statistic `chi2_contingency(crosstab)` returns on a
NaN-free weighted contingency table (with the default continuity
correction on 2×2 tables).  On a table with a NaN cell `chi2_contingency`
returns NaN instead, without raising; `cramers_v` below dispatches on
`hasNaNCell` before using this value. -/
def chi2stat (rows : List WRow) : ℚ :=
  let yates := (xCats rows).length == 2 && (yCats rows).length == 2
  ((xCats rows).map (fun a =>
    ((yCats rows).map (fun b =>
      chiTerm yates ((cell rows a b).getD 0) (expectedFreq rows a b))).sum)).sum

/-- `chi2_contingency` raises `ValueError` when some observed cell is
negative (possible here only through negative weights); the bare `except`
of `cramers_v` turns that into 0.0.  A NaN cell never triggers this check:
`NaN < 0` is false, as is `(cell …).getD 0 < 0`. -/
def hasNegCell (rows : List WRow) : Bool :=
  (xCats rows).any (fun a => (yCats rows).any (fun b =>
    (cell rows a b).getD 0 < 0))

/-- `chi2_contingency` raises `ValueError` when the table of expected
frequencies has a zero element (a zero row or column margin); the bare
`except` of `cramers_v` turns that into 0.0.  On a table with a NaN cell
the expected frequencies are all NaN and `NaN == 0` is false, so that
check cannot fire there; `cramers_v` consults this flag only on NaN-free
tables. -/
def hasZeroExpected (rows : List WRow) : Bool :=
  (xCats rows).any (fun a => (yCats rows).any (fun b =>
    expectedFreq rows a b == 0))

/-- `min_dim = min(crosstab.shape[0] - 1, crosstab.shape[1] - 1)`. -/
def minDim (rows : List WRow) : ℕ :=
  min ((xCats rows).length - 1) ((yCats rows).length - 1)

/-- `cramers_v(x, y, weights)` of the source, modelled by the SQUARE of its
return value inside `Option`: `some q` is a real return value whose square
root the source returns, `none` is the float NaN.  The square loses
nothing: `t ↦ √t` is a monotone bijection of `[0, ∞)` onto itself with
`min (√t) 1 = √(min t 1)`, so range and equality facts transfer, and
`√NaN = NaN`.

Branches, in the source's order:
* `crosstab.empty or crosstab.sum().sum() == 0` → 0.0 (pandas sums skip
  NaN, so the total is the plain `crosstabTotal`);
* a negative observed cell makes `chi2_contingency` raise, caught by the
  bare `except` → 0.0;
* on a table with a NaN cell (an unobserved category pair)
  `chi2_contingency` does NOT raise — `observed < 0` and `expected == 0`
  are both elementwise-false on NaN — and returns `chi2 = NaN`; the
  `min_dim == 0` guard after the call still returns 0.0, but otherwise
  `np.sqrt(NaN / (n·k))` is NaN and Python's `min(NaN, 1.0)` returns NaN,
  so the function returns NaN (`none`) and the `except` never fires;
* on a NaN-free table, a zero expected frequency makes `chi2_contingency`
  raise → 0.0; `min_dim == 0` → 0.0 (scipy returns `chi2 = 0` at zero
  degrees of freedom, raising nothing before the guard);
* otherwise the clamped value `min (chi2 / (n·k)) 1`. -/
def cramers_v (rows : List WRow) : Option ℚ :=
  if rows = [] then some 0
  else if crosstabTotal rows = 0 then some 0
  else if hasNegCell rows then some 0
  else if hasNaNCell rows then
    if minDim rows = 0 then some 0 else none
  else if hasZeroExpected rows then some 0
  else if minDim rows = 0 then some 0
  else some (min (chi2stat rows / (crosstabTotal rows * minDim rows)) 1)

/-- A data-frame row as `calculate_association_matrix` consumes it: the
categorical cells, looked up by column name, and the weight cell. -/
abbrev ARow := (String → Option String) × Option ℚ

/-- The observations the `valid_mask` of `calculate_association_matrix`
keeps for one pair of variables: both categorical values present and (a
weight column being passed) the weight present. -/
def validTriples (tbl : List ARow) (v1 v2 : String) : List WRow :=
  tbl.filterMap (fun r =>
    match r.1 v1, r.1 v2, r.2 with
    | some a, some b, some w => some (a, b, w)
    | _, _, _ => none)

/-- `calculate_association_matrix(df, variables, weights)` as a function of
the index pair: the diagonal is set to 1.0; for `i < j` the entry is
computed by `cramers_v` on the valid observations of `(variables[i],
variables[j])` when any exist (the `np.zeros` initialisation leaves 0
otherwise), and the `j, i` entry mirrors it.  Entries carry the `Option`
value model of `cramers_v`: `some q` is a number, `none` the float NaN. -/
def calculate_association_matrix (tbl : List ARow) (fields : List String)
    (i j : Fin fields.length) : Option ℚ :=
  if i = j then some 1
  else
    let lo := if (i : ℕ) < (j : ℕ) then i else j
    let hi := if (i : ℕ) < (j : ℕ) then j else i
    let rows := validTriples tbl (fields.get lo) (fields.get hi)
    if 0 < rows.length then cramers_v rows else some 0

/-- `weighted_percentage(df, column, value)`: restrict to the rows whose
cell in `column` is exactly 'SI' or 'NO' (`isin(['SI', 'NO'])`; a missing
cell or any other spelling, including the accented 'SÍ', is excluded);
return 0 if no row is left; otherwise divide the weight sum of the rows
matching `value` by the weight sum of all eligible rows.  When eligible
rows exist but their weights sum to 0, numpy performs the float division
0/0 without raising and yields NaN; `none` models that non-number outcome,
`some q` a real result. -/
def weighted_percentage (rows : List (Option String × ℚ)) (value : String) :
    Option ℚ :=
  let valid := rows.filter (fun r => r.1 == some "SI" || r.1 == some "NO")
  if valid = [] then some 0
  else
    let den := (valid.map Prod.snd).sum
    if den = 0 then none
    else
      some (((valid.filter (fun r => r.1 == some value)).map Prod.snd).sum / den)

/-- The SI/NO normalization of `load_and_process_data`: on a column whose
non-missing stripped upper-cased values form a subset of SI/NO/SÍ, the
companion `_num` column maps SI and SÍ to 1 and NO to 0, and `fillna(0)`
sends a missing cell to 0.  The argument is the cell after
`strip().upper()`. -/
def siNoToNum (o : Option String) : ℚ :=
  match o with
  | some s => if s = "SI" ∨ s = "SÍ" then 1 else if s = "NO" then 0 else 0
  | none => 0

/-- The per-ethnicity weighted mean `avg_participation` of the cultural
participation page: `np.average(g['indice_cultural'].dropna(),
weights=g['FACTOR DE EXPANSION'].dropna())` when the value column has a
non-missing entry, `else 0`.  The two `dropna()` calls act independently on
the value column and on the weight column, and `np.average` pairs the
survivors positionally.  `none` models a raised exception: a length
mismatch between the two surviving lists (numpy `TypeError`, not caught at
the call site) or a zero weight sum (`ZeroDivisionError`). -/
def avg_participation (vals ws : List (Option ℚ)) : Option ℚ :=
  let v := vals.filterMap id
  let w := ws.filterMap id
  if v = [] then some 0
  else if v.length ≠ w.length then none
  else if w.sum = 0 then none
  else some (((v.zip w).map (fun p => p.1 * p.2)).sum / w.sum)

/-- C6 counterexample: at age 12 the source's binning (`pd.cut`, right-closed
intervals) yields "Niñez (0-12)", while the left-inclusive binning the claim
states over the same boundaries yields "Adolescencia (13-18)". -/
theorem C6_counterexample :
    grupo_edad (some 12) = some "Niñez (0-12)" ∧
    grupo_edad_spec (some 12) = some "Adolescencia (13-18)" ∧
    grupo_edad (some 12) ≠ grupo_edad_spec (some 12) := by
  refine ⟨by decide, by decide, by decide⟩

/-- C6 (amended): the derived age group is one of 6 fixed buckets over the
boundaries 0,12,18,28,40,60,100 with RIGHT-inclusive binning (the lowest
bound included): [0,12], (12,18], (18,28], (28,40], (40,60], (60,100]; any
age outside [0,100] or missing maps to the undefined value; and the table
of ages [10, 25, 45, 70] yields the buckets Niñez (0-12), Juventud (19-28),
Adultez media (41-60), Adulto mayor (60+). -/
theorem C6_age_buckets (a : ℚ) :
    (0 ≤ a → a ≤ 12 → grupo_edad (some a) = some "Niñez (0-12)") ∧
    (12 < a → a ≤ 18 → grupo_edad (some a) = some "Adolescencia (13-18)") ∧
    (18 < a → a ≤ 28 → grupo_edad (some a) = some "Juventud (19-28)") ∧
    (28 < a → a ≤ 40 → grupo_edad (some a) = some "Adultez temprana (29-40)") ∧
    (40 < a → a ≤ 60 → grupo_edad (some a) = some "Adultez media (41-60)") ∧
    (60 < a → a ≤ 100 → grupo_edad (some a) = some "Adulto mayor (60+)") ∧
    (a < 0 → grupo_edad (some a) = none) ∧
    (100 < a → grupo_edad (some a) = none) ∧
    grupo_edad (none : Option ℚ) = none ∧
    [grupo_edad (some 10), grupo_edad (some 25), grupo_edad (some 45),
        grupo_edad (some 70)] =
      [some "Niñez (0-12)", some "Juventud (19-28)",
        some "Adultez media (41-60)", some "Adulto mayor (60+)"] := by
  refine ⟨?_, ?_, ?_, ?_, ?_, ?_, ?_, ?_, rfl, by decide⟩ <;>
    · intros
      simp only [grupo_edad]
      split_ifs <;> first | rfl | linarith

/-- Witness for `C6_age_buckets` at age 5. -/
theorem C6_age_buckets_witness :
    (0 : ℚ) ≤ 5 ∧ (5 : ℚ) ≤ 12 ∧ grupo_edad (some 5) = some "Niñez (0-12)" :=
  ⟨by norm_num, by norm_num, (C6_age_buckets 5).1 (by norm_num) (by norm_num)⟩

/-- C3: after the weight repair every weight is strictly positive (and, being
a rational, finite); an absent column is created as constant 1 for all rows
and flagged as an assumption; a present column keeps its length, is not
flagged, the missing values are counted in `valoresNulos`, and the
originally non-positive numeric values are counted separately in
`valoresInvalidos` (a repaired missing value is never double-counted as
non-positive). -/
theorem C3_weight_repair (col : Option (List (Option ℚ))) (nRows : ℕ) :
    (∀ w ∈ (repairFactorExpansion col nRows).weights, 0 < w) ∧
    (col = none →
      (repairFactorExpansion col nRows).weights = List.replicate nRows 1 ∧
      (repairFactorExpansion col nRows).asumido = true) ∧
    (∀ cs, col = some cs →
      (repairFactorExpansion col nRows).weights.length = cs.length ∧
      (repairFactorExpansion col nRows).asumido = false ∧
      (repairFactorExpansion col nRows).valoresNulos = cs.countP (·.isNone) ∧
      (repairFactorExpansion col nRows).valoresInvalidos =
        cs.countP (fun o => o.elim false (fun v => decide (v ≤ 0)))) := by
  refine ⟨?_, ?_, ?_⟩
  · intro w hw
    match col with
    | none =>
        simp only [repairFactorExpansion, List.eq_of_mem_replicate hw]
        norm_num
    | some cs =>
        simp only [repairFactorExpansion, List.mem_map] at hw
        obtain ⟨v, -, rfl⟩ := hw
        split_ifs with h
        · norm_num
        · exact lt_of_not_le h
  · rintro rfl
    exact ⟨rfl, rfl⟩
  · rintro cs rfl
    refine ⟨by simp [repairFactorExpansion], rfl, rfl, ?_⟩
    simp only [repairFactorExpansion, List.countP_map]
    refine List.countP_congr (fun o _ => ?_)
    match o with
    | none => simp [Option.getD]
    | some v => simp [Option.getD, Function.comp]

/-- Witness for `C3_weight_repair` on the column [missing, -2, 3]. -/
theorem C3_weight_repair_witness :
    (repairFactorExpansion (some [none, some (-2 : ℚ), some 3]) 3).valoresInvalidos =
      [none, some (-2 : ℚ), some 3].countP
        (fun o => o.elim false (fun v => decide (v ≤ 0))) :=
  ((C3_weight_repair (some [none, some (-2 : ℚ), some 3]) 3).2.2
    [none, some (-2 : ℚ), some 3] rfl).2.2.2

/-- C10: `weighted_percentage` restricts eligibility to the exact spellings
'SI' and 'NO', so a row holding the accented affirmative 'SÍ' is excluded
from numerator and denominator, even though the SI/NO normalization maps
'SÍ' to 1; on the one-row table [('SÍ', weight 2)] the weighted rate is 0
while the weighted mean of the normalized 0/1 field is 1. -/
theorem C10_accented_si_mismatch :
    ([((some "SÍ" : Option String), (2 : ℚ))].filter
        (fun r => r.1 == some "SI" || r.1 == some "NO")) = [] ∧
    weighted_percentage [(some "SÍ", 2)] "SI" = some 0 ∧
    siNoToNum (some "SÍ") = 1 ∧
    avg_participation [some (siNoToNum (some "SÍ"))] [some 2] = some 1 ∧
    weighted_percentage [(some "SÍ", 2)] "SI" ≠
      avg_participation [some (siNoToNum (some "SÍ"))] [some 2] := by
  refine ⟨by decide, by decide, by decide,
    by simp +decide [avg_participation, siNoToNum], ?_⟩
  have h4 : avg_participation [some (siNoToNum (some "SÍ"))] [some 2] = some 1 := by
    simp +decide [avg_participation, siNoToNum]
  rw [h4]
  decide

/-- C8 counterexample: on the one-row table [('SI', weight 0)] the eligible
rows are nonempty with weight sum 0; the claim says the function returns 0,
but the source divides 0/0, which numpy turns into NaN (`none` here), not
into the number 0. -/
theorem C8_counterexample :
    ((([((some "SI" : Option String), (0 : ℚ))].filter
        (fun r => r.1 == some "SI" || r.1 == some "NO")).map Prod.snd).sum = 0) ∧
    weighted_percentage [(some "SI", 0)] "SI" = none ∧
    weighted_percentage [(some "SI", 0)] "SI" ≠ some 0 := by
  refine ⟨by norm_num, by norm_num [weighted_percentage], ?_⟩
  norm_num [weighted_percentage]
  exact fun h => Option.noConfusion h

/-- C8 (amended): `weighted_percentage` returns the weight sum of the
matching rows divided by the weight sum of the eligible rows whenever the
latter is nonzero; it returns 0 when there is NO eligible row (which is the
only way the eligible weight sum can vanish when all weights are positive);
when eligible rows exist but their weights sum to 0 the float division
yields NaN rather than 0 — and in no case is an exception raised past the
function.  With strictly positive weights the result is always a number. -/
theorem C8_weighted_percentage (rows : List (Option String × ℚ)) (value : String) :
    (rows.filter (fun r => r.1 == some "SI" || r.1 == some "NO") = [] →
      weighted_percentage rows value = some 0) ∧
    (((rows.filter (fun r => r.1 == some "SI" || r.1 == some "NO")).map
        Prod.snd).sum ≠ 0 →
      weighted_percentage rows value =
        some ((((rows.filter (fun r => r.1 == some "SI" || r.1 == some "NO")).filter
            (fun r => r.1 == some value)).map Prod.snd).sum /
          ((rows.filter (fun r => r.1 == some "SI" || r.1 == some "NO")).map
            Prod.snd).sum)) ∧
    ((∀ r ∈ rows, 0 < r.2) → ∃ q, weighted_percentage rows value = some q) := by
  refine ⟨?_, ?_, ?_⟩
  · intro h
    simp [weighted_percentage, h]
  · intro h
    have hne : rows.filter (fun r => r.1 == some "SI" || r.1 == some "NO") ≠ [] := by
      intro hnil
      rw [hnil] at h
      simp at h
    simp only [weighted_percentage]
    rw [if_neg hne, if_neg h]
  · intro hpos
    by_cases hnil : rows.filter (fun r => r.1 == some "SI" || r.1 == some "NO") = []
    · exact ⟨0, by simp [weighted_percentage, hnil]⟩
    · have hsum : 0 <
          ((rows.filter (fun r => r.1 == some "SI" || r.1 == some "NO")).map
            Prod.snd).sum := by
        refine List.sum_pos _ (fun w hw => ?_) ?_
        · obtain ⟨r, hr, rfl⟩ := List.mem_map.mp hw
          exact hpos r (List.mem_of_mem_filter hr)
        · intro hmapnil
          exact hnil (List.map_eq_nil_iff.mp hmapnil)
      refine ⟨(((rows.filter (fun r => r.1 == some "SI" || r.1 == some "NO")).filter
          (fun r => r.1 == some value)).map Prod.snd).sum /
        ((rows.filter (fun r => r.1 == some "SI" || r.1 == some "NO")).map
          Prod.snd).sum, ?_⟩
      simp only [weighted_percentage]
      rw [if_neg hnil, if_neg (ne_of_gt hsum)]

/-- Witness for `C8_weighted_percentage`: the empty-eligible case returns 0
and the positive-weight case returns a number. -/
theorem C8_weighted_percentage_witness :
    weighted_percentage [((some "TAL VEZ" : Option String), (3 : ℚ))] "SI" = some 0 ∧
    ∃ q, weighted_percentage [((some "SI" : Option String), (1 : ℚ)), (some "NO", 1)]
      "SI" = some q :=
  ⟨(C8_weighted_percentage [(some "TAL VEZ", 3)] "SI").1 (by decide),
   (C8_weighted_percentage [(some "SI", 1), (some "NO", 1)] "SI").2.2 (by decide)⟩

/-- C7 counterexample: with the value column all-missing and a present
weight, the source returns the plain number 0 (`else 0`), not an undefined
marker; and with one missing value next to one present value, both weights
present, the independently applied `dropna()` calls misalign and
`np.average` raises instead of excluding the row from the denominator. -/
theorem C7_counterexample :
    avg_participation [none] [some 2] = some 0 ∧
    avg_participation [none] [some 2] ≠ none ∧
    avg_participation [none, some 3] [some 2, some 5] = none := by
  refine ⟨by decide, by decide, by decide⟩

/-- C7 (amended): the per-ethnicity weighted mean drops missing entries from
the value column and from the weight column independently and pairs the
survivors positionally: when no value survives it silently returns 0; when
the survivor counts differ it raises (an error, not an exclusion of the row
from the denominator); when no entry is missing at all and the weight sum
is nonzero it returns the weighted mean Σ vᵢwᵢ / Σ wᵢ. -/
theorem C7_avg_participation (vals ws : List (Option ℚ)) :
    (vals.filterMap id = [] → avg_participation vals ws = some 0) ∧
    (vals.filterMap id ≠ [] →
      (vals.filterMap id).length ≠ (ws.filterMap id).length →
      avg_participation vals ws = none) ∧
    (∀ v w : List ℚ, vals = v.map some → ws = w.map some → v ≠ [] →
      v.length = w.length → w.sum ≠ 0 →
      avg_participation vals ws =
        some (((v.zip w).map (fun p => p.1 * p.2)).sum / w.sum)) := by
  refine ⟨?_, ?_, ?_⟩
  · intro h
    simp [avg_participation, h]
  · intro h1 h2
    simp only [avg_participation]
    rw [if_neg h1, if_pos h2]
  · rintro v w rfl rfl hne hlen hsum
    have hv : (v.map some).filterMap id = v := by
      simp [List.filterMap_map, Function.comp]
    have hw : (w.map some).filterMap id = w := by
      simp [List.filterMap_map, Function.comp]
    simp only [avg_participation, hv, hw]
    rw [if_neg hne, if_neg (by rw [hlen]; exact fun h => h rfl), if_neg hsum]

/-- Witness for `C7_avg_participation`: the fully present two-row case. -/
theorem C7_avg_participation_witness :
    avg_participation [some (1 : ℚ), some 3] [some 1, some 1] =
      some ((([(1 : ℚ), 3].zip [1, 1]).map (fun p => p.1 * p.2)).sum /
        ([(1 : ℚ), 1]).sum) :=
  (C7_avg_participation [some 1, some 3] [some 1, some 1]).2.2 [1, 3] [1, 1]
    rfl rfl (by decide) rfl (by norm_num)

/-- A column never has more missing cells than cells. -/
lemma naCount_le_size (c : Column) : c.naCount ≤ c.size := by
  cases c <;> exact List.countP_le_length _

/-- The missing percentage is never negative. -/
lemma missingPct_nonneg (nRows : ℕ) (c : Column) : 0 ≤ missingPct nRows c := by
  unfold missingPct
  positivity

/-- For a column of the table's length the missing percentage is at most
100. -/
lemma missingPct_le_100 (nRows : ℕ) (c : Column) (h : c.size = nRows) :
    missingPct nRows c ≤ 100 := by
  rcases Nat.eq_zero_or_pos nRows with h0 | h0
  · have hz : c.naCount = 0 := Nat.le_zero.mp (h0 ▸ h ▸ naCount_le_size c)
    simp [missingPct, hz]
  · have hpos : (0 : ℚ) < nRows := by exact_mod_cast h0
    have hle : (c.naCount : ℚ) ≤ (nRows : ℚ) := by
      exact_mod_cast h ▸ naCount_le_size c
    have h1 : (c.naCount : ℚ) / nRows ≤ 1 := (div_le_one hpos).mpr hle
    calc missingPct nRows c = ((c.naCount : ℚ) / nRows) * 100 := rfl
    _ ≤ 1 * 100 := by nlinarith
    _ = 100 := by norm_num

/-- The missing percentage is monotone in the missing count. -/
lemma missingPct_mono (nRows : ℕ) {c d : Column} (h : c.naCount ≤ d.naCount) :
    missingPct nRows c ≤ missingPct nRows d := by
  unfold missingPct
  rcases Nat.eq_zero_or_pos nRows with h0 | h0
  · subst h0
    norm_num
  · have hn : (0 : ℚ) < nRows := by exact_mod_cast h0
    have hc : (c.naCount : ℚ) ≤ (d.naCount : ℚ) := by exact_mod_cast h
    have := (div_le_div_iff_of_pos_right hn).mpr hc
    nlinarith

/-- A column with a missing cell has a positive missing percentage. -/
lemma missingPct_pos (nRows : ℕ) (c : Column) (h : c.size = nRows)
    (hna : 0 < c.naCount) : 0 < missingPct nRows c := by
  have hn : 0 < nRows := lt_of_lt_of_le hna (h ▸ naCount_le_size c)
  have h1 : (0 : ℚ) < (c.naCount : ℚ) := by exact_mod_cast hna
  have h2 : (0 : ℚ) < (nRows : ℚ) := by exact_mod_cast hn
  unfold missingPct
  positivity

/-- C9: the drop test compares each column's missing percentage to
`threshold × 100` with strict greater-than: with threshold 1 no column is
dropped regardless of its missingness, and with threshold 0 exactly the
columns with at least one missing value are dropped. -/
theorem C9_threshold_extremes (t : Table) (hwf : t.WF) :
    (limpiarDatosCategoricos t 1).2.columnasEliminadas = [] ∧
    (limpiarDatosCategoricos t 0).2.columnasEliminadas =
      (t.cols.filter (fun c => decide (0 < c.naCount))).map Column.name := by
  constructor
  · have hnil : t.cols.filter (dropFlag t.nRows 1) = [] := by
      refine List.filter_eq_nil_iff.mpr (fun c hc => ?_)
      simp only [dropFlag, decide_eq_true_eq, not_lt, one_mul]
      exact missingPct_le_100 _ _ (hwf c hc)
    simp [limpiarDatosCategoricos, hnil]
  · have hcong : t.cols.filter (dropFlag t.nRows 0) =
        t.cols.filter (fun c => decide (0 < c.naCount)) := by
      refine List.filter_congr (fun c hc => ?_)
      simp only [dropFlag, zero_mul, decide_eq_decide]
      constructor
      · intro h
        by_contra h0
        push_neg at h0
        have hz : c.naCount = 0 := Nat.le_zero.mp h0
        rw [show missingPct t.nRows c = 0 by simp [missingPct, hz]] at h
        exact lt_irrefl 0 h
      · intro h
        exact missingPct_pos _ _ (hwf c hc) h
    simp [limpiarDatosCategoricos, hcong]

/-- Witness for `C9_threshold_extremes` on a concrete two-column table. -/
theorem C9_threshold_extremes_witness :
    (limpiarDatosCategoricos ⟨2, [.cat "A" [some "x", none], .num "C" [some 1, some 2]]⟩
        1).2.columnasEliminadas = [] ∧
    (limpiarDatosCategoricos ⟨2, [.cat "A" [some "x", none], .num "C" [some 1, some 2]]⟩
        0).2.columnasEliminadas =
      (([.cat "A" [some "x", none], .num "C" [some (1 : ℚ), some 2]] : List Column).filter
        (fun c => decide (0 < c.naCount))).map Column.name :=
  C9_threshold_extremes ⟨2, [.cat "A" [some "x", none], .num "C" [some 1, some 2]]⟩
    (by unfold Table.WF; decide)

/-- C5 counterexample: on a table whose first column A has 50% missing and
whose second column B has 100% missing, threshold 0.3, the source drops
["A", "B"] — the original column order — while the claimed descending
missing-fraction order is ["B", "A"]. -/
theorem C5_counterexample :
    (limpiarDatosCategoricos ⟨2, [.cat "A" [some "x", none], .cat "B" [none, none]]⟩
        (3/10)).2.columnasEliminadas = ["A", "B"] ∧
    droppedSpecOrder ⟨2, [.cat "A" [some "x", none], .cat "B" [none, none]]⟩ (3/10) =
      ["B", "A"] ∧
    (["A", "B"] : List String) ≠ ["B", "A"] := by
  refine ⟨?_, ?_, by decide⟩
  · norm_num [limpiarDatosCategoricos, dropFlag, missingPct, Column.naCount,
      Column.name, List.countP_cons, List.countP_nil, List.filter_cons,
      List.filter_nil]
  · norm_num [droppedSpecOrder, insertByPctDesc, dropFlag, missingPct,
      Column.naCount, Column.name, List.countP_cons, List.countP_nil,
      List.filter_cons, List.filter_nil]

/-- C5 (amended): the dropped-column list contains exactly the columns whose
missing fraction `naCount / nRows` strictly exceeds the threshold, and its
order is the ORIGINAL column order (the boolean filter on the
`porcentaje_na` Series preserves the index order), not descending
missing-fraction order. -/
theorem C5_dropped_columns (t : Table) (umbralNa : ℚ) :
    (limpiarDatosCategoricos t umbralNa).2.columnasEliminadas =
      (t.cols.filter
        (fun c => decide (umbralNa < (c.naCount : ℚ) / t.nRows))).map Column.name ∧
    (limpiarDatosCategoricos t umbralNa).2.columnasEliminadas.Sublist
      (t.cols.map Column.name) := by
  have hcong : t.cols.filter (dropFlag t.nRows umbralNa) =
      t.cols.filter (fun c => decide (umbralNa < (c.naCount : ℚ) / t.nRows)) := by
    refine List.filter_congr (fun c _ => ?_)
    simp only [dropFlag, decide_eq_decide, missingPct]
    constructor
    · intro h
      nlinarith
    · intro h
      nlinarith
  constructor
  · simp [limpiarDatosCategoricos, hcong]
  · have h1 : (limpiarDatosCategoricos t umbralNa).2.columnasEliminadas =
        (t.cols.filter (dropFlag t.nRows umbralNa)).map Column.name := by
      simp [limpiarDatosCategoricos]
    rw [h1]
    exact (List.filter_sublist _).map Column.name

/-- Imputation never increases the missing count (it zeroes it on the
categorical columns it touches and leaves every other column unchanged). -/
lemma imputeCategorical_naCount_le (c : Column) :
    ((imputeCategorical c).1).naCount ≤ c.naCount := by
  cases c with
  | cat n cs =>
      by_cases h : 0 < cs.countP (·.isNone)
      · simp only [imputeCategorical, if_pos h, Column.naCount]
        have hz : (cs.map (fun o => some (o.getD "NO INFORMACION"))).countP
            (·.isNone) = 0 := by
          rw [List.countP_map]
          exact List.countP_eq_zero.mpr (fun a _ => by simp [Function.comp])
        rw [hz]
        exact Nat.zero_le _
      · simp only [imputeCategorical, if_neg h]
        exact le_refl _
  | num n cs => exact le_refl _

/-- Every categorical column coming out of the imputation pass is free of
missing values. -/
lemma imputeCategorical_fst_null_free (c : Column) (n : String)
    (cs : List (Option String)) (h : (imputeCategorical c).1 = .cat n cs) :
    cs.countP (·.isNone) = 0 := by
  cases c with
  | cat m ds =>
      by_cases hd : 0 < ds.countP (·.isNone)
      · simp only [imputeCategorical, if_pos hd] at h
        injection h with h1 h2
        subst h2
        rw [List.countP_map]
        exact List.countP_eq_zero.mpr (fun a _ => by simp [Function.comp])
      · simp only [imputeCategorical, if_neg hd] at h
        injection h with h1 h2
        subst h2
        omega
  | num m ds => simp [imputeCategorical] at h

/-- Imputation is the identity (and reports nothing) on a column whose
categorical cells have no missing value. -/
lemma imputeCategorical_noop (c : Column)
    (h : ∀ n cs, c = Column.cat n cs → cs.countP (·.isNone) = 0) :
    imputeCategorical c = (c, false) := by
  cases c with
  | cat n cs => simp [imputeCategorical, h n cs rfl]
  | num n cs => rfl

/-- C4: cleaning is idempotent — running `limpiar_datos_categoricos` again
with the same threshold on its own output returns the table unchanged, and
the second report has empty dropped-column and imputed-column lists. -/
theorem C4_cleaning_idempotent (t : Table) (umbralNa : ℚ) :
    (limpiarDatosCategoricos (limpiarDatosCategoricos t umbralNa).1 umbralNa).1 =
      (limpiarDatosCategoricos t umbralNa).1 ∧
    (limpiarDatosCategoricos (limpiarDatosCategoricos t umbralNa).1
        umbralNa).2.columnasEliminadas = [] ∧
    (limpiarDatosCategoricos (limpiarDatosCategoricos t umbralNa).1
        umbralNa).2.columnasImputadas = [] := by
  have hT1 : (limpiarDatosCategoricos t umbralNa).1 =
      ⟨t.nRows, (t.cols.filter (fun c => ! dropFlag t.nRows umbralNa c)).map
        (fun c => (imputeCategorical c).1)⟩ := by
    simp [limpiarDatosCategoricos, List.map_map, Function.comp]
  set cols1 := (t.cols.filter (fun c => ! dropFlag t.nRows umbralNa c)).map
    (fun c => (imputeCategorical c).1) with hcols1
  have hkeep : ∀ c0 ∈ t.cols.filter (fun c => ! dropFlag t.nRows umbralNa c),
      missingPct t.nRows c0 ≤ umbralNa * 100 := by
    intro c0 hc0
    have hb := (List.mem_filter.mp hc0).2
    rw [Bool.not_eq_true'] at hb
    have := of_decide_eq_false hb
    exact not_lt.mp this
  have hflag : ∀ c ∈ cols1, dropFlag t.nRows umbralNa c = false := by
    intro c hc
    obtain ⟨c0, hc00, rfl⟩ := List.mem_map.mp hc
    have h1 : missingPct t.nRows ((imputeCategorical c0).1) ≤
        missingPct t.nRows c0 := missingPct_mono _ (imputeCategorical_naCount_le c0)
    have h2 := hkeep c0 hc00
    exact decide_eq_false (not_lt.mpr (le_trans h1 h2))
  have hnoop : ∀ c ∈ cols1, imputeCategorical c = (c, false) := by
    intro c hc
    obtain ⟨c0, hc00, rfl⟩ := List.mem_map.mp hc
    exact imputeCategorical_noop _
      (fun n cs h => imputeCategorical_fst_null_free c0 n cs h)
  have e1 : cols1.filter (dropFlag t.nRows umbralNa) = [] :=
    List.filter_eq_nil_iff.mpr (fun c hc => by simp [hflag c hc])
  have e2 : cols1.filter (fun c => ! dropFlag t.nRows umbralNa c) = cols1 :=
    List.filter_eq_self.mpr (fun c hc => by simp [hflag c hc])
  have e3 : cols1.map imputeCategorical = cols1.map (fun c => (c, false)) :=
    List.map_congr_left (fun c hc => hnoop c hc)
  rw [hT1]
  refine ⟨?_, ?_, ?_⟩
  · simp only [limpiarDatosCategoricos, e2, e3, List.map_map]
    congr 1
    have hid : (Prod.fst ∘ fun c : Column => (c, false)) = id := rfl
    rw [hid, List.map_id]
  · simp only [limpiarDatosCategoricos, e1, List.map_nil]
  · simp only [limpiarDatosCategoricos, e2, e3]
    have e4 : (cols1.map (fun c => (c, false))).filter Prod.snd = [] := by
      refine List.filter_eq_nil_iff.mpr (fun p hp => ?_)
      obtain ⟨c, hc, rfl⟩ := List.mem_map.mp hp
      simp
    rw [e4]
    simp

/-- C2: for every table, weight column and ordered field list, the
association matrix is symmetric and its diagonal entries equal 1.0 (`some
1` in the `Option` value model — the number 1.0, not NaN); the
off-diagonal entries are computed once on the upper triangle `i < j` and
mirrored into the lower triangle (a `Fin`-indexed entry exists exactly when
the field list is nonempty). -/
theorem C2_association_matrix (tbl : List ARow) (fields : List String)
    (i j : Fin fields.length) :
    calculate_association_matrix tbl fields i j =
      calculate_association_matrix tbl fields j i ∧
    calculate_association_matrix tbl fields i i = some 1 := by
  constructor
  · by_cases h : i = j
    · subst h
      rfl
    · have hne : ¬ j = i := fun e => h e.symm
      rcases Nat.lt_trichotomy (i : ℕ) (j : ℕ) with hlt | heq | hgt
      · have h1 : ¬ (j : ℕ) < (i : ℕ) := Nat.not_lt.mpr (Nat.le_of_lt hlt)
        simp only [calculate_association_matrix, if_neg h, if_neg hne,
          if_pos hlt, if_neg h1]
      · exact absurd (Fin.ext heq) h
      · have h1 : ¬ (i : ℕ) < (j : ℕ) := Nat.not_lt.mpr (Nat.le_of_lt hgt)
        simp only [calculate_association_matrix, if_neg h, if_neg hne,
          if_neg h1, if_pos hgt]
  · simp [calculate_association_matrix]

/-- With no negative cell, every cell value of the contingency table
(a NaN cell reading as 0) is nonnegative. -/
lemma cells_nonneg {rows : List WRow} (h : hasNegCell rows = false) :
    ∀ a ∈ xCats rows, ∀ b ∈ yCats rows, 0 ≤ (cell rows a b).getD 0 := by
  intro a ha b hb
  by_contra hneg
  push_neg at hneg
  have htrue : hasNegCell rows = true := by
    simp only [hasNegCell, List.any_eq_true, decide_eq_true_eq]
    exact ⟨a, ha, b, hb, hneg⟩
  rw [h] at htrue
  exact Bool.noConfusion htrue

/-- With no negative cell, every row margin is nonnegative. -/
lemma rowMargin_nonneg {rows : List WRow} (h : hasNegCell rows = false)
    {a : String} (ha : a ∈ xCats rows) : 0 ≤ rowMargin rows a := by
  refine List.sum_nonneg (fun x hx => ?_)
  obtain ⟨b, hb, rfl⟩ := List.mem_map.mp hx
  exact cells_nonneg h a ha b hb

/-- With no negative cell, every column margin is nonnegative. -/
lemma colMargin_nonneg {rows : List WRow} (h : hasNegCell rows = false)
    {b : String} (hb : b ∈ yCats rows) : 0 ≤ colMargin rows b := by
  refine List.sum_nonneg (fun x hx => ?_)
  obtain ⟨a, ha, rfl⟩ := List.mem_map.mp hx
  exact cells_nonneg h a ha b hb

/-- With no negative cell, the grand total is nonnegative. -/
lemma crosstabTotal_nonneg {rows : List WRow} (h : hasNegCell rows = false) :
    0 ≤ crosstabTotal rows := by
  refine List.sum_nonneg (fun x hx => ?_)
  obtain ⟨a, ha, rfl⟩ := List.mem_map.mp hx
  exact rowMargin_nonneg h ha

/-- With no negative cell, every expected frequency is nonnegative. -/
lemma expectedFreq_nonneg {rows : List WRow} (h : hasNegCell rows = false)
    {a b : String} (ha : a ∈ xCats rows) (hb : b ∈ yCats rows) :
    0 ≤ expectedFreq rows a b :=
  div_nonneg (mul_nonneg (rowMargin_nonneg h ha) (colMargin_nonneg h hb))
    (crosstabTotal_nonneg h)

/-- A chi-square term is nonnegative whenever its expected frequency is. -/
lemma chiTerm_nonneg (y : Bool) (o e : ℚ) (he : 0 ≤ e) : 0 ≤ chiTerm y o e := by
  unfold chiTerm
  split_ifs
  · exact div_nonneg (sq_nonneg _) he
  · exact div_nonneg (sq_nonneg _) he

/-- With no negative cell, the chi-square statistic is nonnegative. -/
lemma chi2stat_nonneg {rows : List WRow} (h : hasNegCell rows = false) :
    0 ≤ chi2stat rows := by
  refine List.sum_nonneg (fun x hx => ?_)
  obtain ⟨a, ha, rfl⟩ := List.mem_map.mp hx
  refine List.sum_nonneg (fun y hy => ?_)
  obtain ⟨b, hb, rfl⟩ := List.mem_map.mp hy
  exact chiTerm_nonneg _ _ _ (expectedFreq_nonneg h ha hb)

/-- C1 counterexample: on the weighted table
[("a","u",1), ("a","v",1), ("b","u",1)] with positive weights, the category
pair ("b","v") never occurs, so `pd.crosstab(..., aggfunc='sum')` leaves
NaN in its cell; `chi2_contingency` propagates the NaN without raising
(`observed < 0` and `expected == 0` are elementwise false on NaN),
`np.sqrt(nan / (n * k))` is NaN, Python's `min(nan, 1.0)` returns NaN, and
`cramers_v` returns NaN — neither a value in [0, 1] nor exactly 0.0 — so
the claim as stated fails on the program (the bare `except` never fires on
this path). -/
theorem C1_counterexample :
    cramers_v [("a", "u", 1), ("a", "v", 1), ("b", "u", 1)] = none ∧
    ∀ q : ℚ, cramers_v [("a", "u", 1), ("a", "v", 1), ("b", "u", 1)] ≠ some q := by
  have h : cramers_v [("a", "u", 1), ("a", "v", 1), ("b", "u", 1)] = none := by
    simp +decide [cramers_v, crosstabTotal, rowMargin, cell, cellWeight,
      cellObserved, hasNaNCell, hasNegCell, xCats, yCats, minDim,
      List.dedup_cons_of_mem, List.dedup_cons_of_not_mem, List.any_cons,
      List.filter_cons, List.filter_nil]
    norm_num
  exact ⟨h, fun q hq => by rw [h] at hq; exact Option.noConfusion hq⟩

/-- Any number `cramers_v` returns lies in [0, 1]: every early branch
returns 0, and the final value is clamped by `min (·) 1` and is a quotient
of nonnegative quantities (a NaN result returns no number at all). -/
lemma cramers_v_some_bounds {rows : List WRow} {q : ℚ}
    (h : cramers_v rows = some q) : 0 ≤ q ∧ q ≤ 1 := by
  unfold cramers_v at h
  by_cases h1 : rows = []
  · rw [if_pos h1] at h
    obtain rfl := (Option.some.inj h).symm
    norm_num
  rw [if_neg h1] at h
  by_cases h2 : crosstabTotal rows = 0
  · rw [if_pos h2] at h
    obtain rfl := (Option.some.inj h).symm
    norm_num
  rw [if_neg h2] at h
  by_cases h3 : hasNegCell rows = true
  · rw [if_pos h3] at h
    obtain rfl := (Option.some.inj h).symm
    norm_num
  rw [if_neg h3] at h
  by_cases h4 : hasNaNCell rows = true
  · rw [if_pos h4] at h
    by_cases h5 : minDim rows = 0
    · rw [if_pos h5] at h
      obtain rfl := (Option.some.inj h).symm
      norm_num
    · rw [if_neg h5] at h
      exact Option.noConfusion h
  rw [if_neg h4] at h
  by_cases h6 : hasZeroExpected rows = true
  · rw [if_pos h6] at h
    obtain rfl := (Option.some.inj h).symm
    norm_num
  rw [if_neg h6] at h
  by_cases h7 : minDim rows = 0
  · rw [if_pos h7] at h
    obtain rfl := (Option.some.inj h).symm
    norm_num
  rw [if_neg h7] at h
  obtain rfl := (Option.some.inj h).symm
  have h3f : hasNegCell rows = false := by simpa using h3
  refine ⟨le_min ?_ (by norm_num), min_le_right _ _⟩
  exact div_nonneg (chi2stat_nonneg h3f)
    (mul_nonneg (crosstabTotal_nonneg h3f) (Nat.cast_nonneg _))

/-- C1 (amended): when every category pair of the contingency table is
observed, Cramér's V returns a number in [0, 1] (clamped at 1.0); the
degenerate inputs — empty table, zero total weight,
`min(rows−1, cols−1) = 0`, and the computations `chi2_contingency` raises
on (negative cell, zero expected frequency), caught by the bare `except` —
return exactly 0.0; but on a table with an unobserved category pair and
`min_dim ≠ 0` the NaN that pandas leaves in the crosstab propagates
through `chi2_contingency` (which does not raise on it) to the returned
value, so the function returns NaN rather than a value in [0, 1].  In no
case does it raise an error. -/
theorem C1_cramers_v_range (rows : List WRow) :
    (∀ q, cramers_v rows = some q → 0 ≤ q ∧ q ≤ 1) ∧
    (rows = [] → cramers_v rows = some 0) ∧
    (crosstabTotal rows = 0 → cramers_v rows = some 0) ∧
    (minDim rows = 0 → cramers_v rows = some 0) ∧
    (hasNaNCell rows = false → ∃ q, cramers_v rows = some q) ∧
    (rows ≠ [] → crosstabTotal rows ≠ 0 → hasNegCell rows = false →
      hasNaNCell rows = true → minDim rows ≠ 0 → cramers_v rows = none) := by
  refine ⟨fun q hq => cramers_v_some_bounds hq, ?_, ?_, ?_, ?_, ?_⟩
  · intro h
    unfold cramers_v
    rw [if_pos h]
  · intro h
    unfold cramers_v
    by_cases h1 : rows = []
    · rw [if_pos h1]
    · rw [if_neg h1, if_pos h]
  · intro h
    unfold cramers_v
    by_cases h1 : rows = []
    · rw [if_pos h1]
    rw [if_neg h1]
    by_cases h2 : crosstabTotal rows = 0
    · rw [if_pos h2]
    rw [if_neg h2]
    by_cases h3 : hasNegCell rows = true
    · rw [if_pos h3]
    rw [if_neg h3]
    by_cases h4 : hasNaNCell rows = true
    · rw [if_pos h4, if_pos h]
    rw [if_neg h4]
    by_cases h6 : hasZeroExpected rows = true
    · rw [if_pos h6]
    rw [if_neg h6, if_pos h]
  · intro h
    unfold cramers_v
    split_ifs <;>
      first
        | exact ⟨_, rfl⟩
        | exact absurd ‹hasNaNCell rows = true› (by simp [h])
  · intro ha hb hc hd he
    unfold cramers_v
    rw [if_neg ha, if_neg hb,
      if_neg (show ¬ hasNegCell rows = true by simp [hc]), if_pos hd, if_neg he]

/-- Witness for `C1_cramers_v_range`: the empty table returns the number 0,
which the range conjunct places in [0, 1]. -/
theorem C1_cramers_v_range_witness :
    cramers_v [] = some 0 ∧ (0 ≤ (0 : ℚ) ∧ (0 : ℚ) ≤ 1) :=
  ⟨(C1_cramers_v_range []).2.1 rfl,
   (C1_cramers_v_range []).1 0 ((C1_cramers_v_range []).2.1 rfl)⟩
